import Mathlib

/-!
Verification of the PubQuiz blog backend's storage layer and publish
scheduler, shallowly embedded in Lean.

The source consists of a database abstraction (an in-memory backend and a
PostgreSQL backend sharing one contract), an HTTP server that runs a
once-per-minute auto-publish scheduler, and admin routes.  This file embeds
the parts of that code relevant to the frozen claims:

* JavaScript string helpers (`toLowerCase`, `trim`, `includes`) are modelled
  over `List Char` at ASCII granularity so that all definitions evaluate
  inside the kernel.
* JavaScript objects holding posts are modelled by a `Post` structure whose
  content fields are `Option`-valued: `none` stands for an absent or
  `undefined` field, so that the object-spread merge of `updatePost`
  (which distinguishes "key present with value `undefined`" from
  "key absent") is represented faithfully.
* Timestamps are integers (epoch milliseconds); `new Date(string)` parsing
  is a parameter `parse : String → Option Int` of every definition that
  parses a date, `none` standing for an invalid date (`NaN`).
* Fallible operations return `Except String` mirroring `throw new Error`.
-/

/-! ## JavaScript string primitives (ASCII model) -/

/-- Lower-case a character, ASCII model of JavaScript `toLowerCase`. -/
def jsLowerChar (c : Char) : Char :=
  if 65 ≤ c.toNat ∧ c.toNat ≤ 90 then Char.ofNat (c.toNat + 32) else c

/-- `s.toLowerCase()` (ASCII model). -/
def jsToLower (s : String) : String := ⟨s.data.map jsLowerChar⟩

/-- ASCII whitespace test used by the `trim` model. -/
def isWsChar (c : Char) : Bool := c = ' ' || c = '\t' || c = '\n' || c = '\r'

/-- `s.trim()` (ASCII-whitespace model): strips leading and trailing whitespace. -/
def jsTrim (s : String) : String :=
  ⟨((s.data.dropWhile isWsChar).reverse.dropWhile isWsChar).reverse⟩

/-- `hay.includes(needle)`: substring containment. -/
def strContains (hay needle : String) : Bool :=
  decide (needle.data <:+: hay.data)

/-- Byte-wise lexicographic order on strings; stands in for the deterministic
ordering PostgreSQL's `ORDER BY name` produces. -/
def strLeChars : List Char → List Char → Bool
  | [], _ => true
  | _ :: _, [] => false
  | a :: as, b :: bs =>
    if a.toNat < b.toNat then true
    else if b.toNat < a.toNat then false
    else strLeChars as bs

/-- String comparison for `ORDER BY`. -/
def strLe (a b : String) : Bool := strLeChars a.data b.data

/-! ## List helpers shared by both backends -/

/-- One insertion step of the deterministic sort used to model ordered
results (`ORDER BY`, `Array.prototype.sort`). -/
def sortIns {α : Type} (le : α → α → Bool) (a : α) : List α → List α
  | [] => [a]
  | b :: l => if le a b then a :: b :: l else b :: sortIns le a l

/-- Deterministic comparison sort modelling `ORDER BY` / `Array.sort`.
Only the multiset of results matters to the claims; the concrete algorithm
is insertion sort so that everything evaluates in the kernel. -/
def sortByComp {α : Type} (le : α → α → Bool) : List α → List α
  | [] => []
  | a :: l => sortIns le a (sortByComp le l)

/-- `[...new Set(l)]`: deduplication keeping the first occurrence,
in insertion order, as a JavaScript `Set` does. -/
def dedupFirst (l : List String) : List String :=
  l.foldl (fun acc x => if x ∈ acc then acc else acc ++ [x]) []

theorem mem_sortIns {α : Type} (le : α → α → Bool) (a x : α) (l : List α) :
    x ∈ sortIns le a l ↔ x = a ∨ x ∈ l := by
  induction l with
  | nil => simp [sortIns]
  | cons b l ih =>
    simp only [sortIns]
    split
    · simp [or_comm, or_assoc, List.mem_cons]
    · simp only [List.mem_cons, ih]
      tauto

theorem mem_sortByComp {α : Type} (le : α → α → Bool) (x : α) (l : List α) :
    x ∈ sortByComp le l ↔ x ∈ l := by
  induction l with
  | nil => simp [sortByComp]
  | cons a l ih => simp [sortByComp, mem_sortIns, ih]

theorem mem_dedupFirst_aux (l : List String) (acc : List String) (x : String) :
    x ∈ l.foldl (fun acc x => if x ∈ acc then acc else acc ++ [x]) acc ↔
      x ∈ acc ∨ x ∈ l := by
  induction l generalizing acc with
  | nil => simp
  | cons y l ih =>
    simp only [List.foldl_cons, ih, List.mem_cons]
    split
    · rename_i hy
      constructor
      · tauto
      · rintro (h | h | h) <;> try tauto
        subst h; tauto
    · simp only [List.mem_append, List.mem_singleton]
      tauto

theorem mem_dedupFirst (l : List String) (x : String) :
    x ∈ dedupFirst l ↔ x ∈ l := by
  unfold dedupFirst
  rw [mem_dedupFirst_aux]
  simp

/-! ## Data model

A blog post as stored by either backend.  Content fields are `Option`-valued:
`none` models a JavaScript `undefined` (or SQL `NULL`) field, `some v` a
defined value.  `createdAt`/`updatedAt` are epoch-millisecond timestamps. -/

structure Post where
  id : String
  title : Option String
  slug : Option String
  excerpt : Option String
  content : Option String
  author : Option String
  category : Option String
  tags : Option (List String)
  image : Option String
  publishedDate : Option String
  scheduledPublishDate : Option String
  readTime : Option String
  featured : Option Bool
  status : Option String
  createdAt : Int
  updatedAt : Int
  commentCount : Nat
deriving DecidableEq, Repr

/-- The `updates` object passed to `updatePost`.  Each slot is doubly
optional: the outer `Option` records whether the KEY is present on the
object, the inner value is the field's (possibly `undefined`) value.  This
mirrors the JavaScript object-spread `{...post, ...updates}`, which
overwrites a field whenever the key is present — even with value
`undefined` — and keeps the old field only when the key is absent. -/
structure PostUpdates where
  title : Option (Option String) := none
  slug : Option (Option String) := none
  excerpt : Option (Option String) := none
  content : Option (Option String) := none
  author : Option (Option String) := none
  category : Option (Option String) := none
  tags : Option (Option (List String)) := none
  image : Option (Option String) := none
  publishedDate : Option (Option String) := none
  scheduledPublishDate : Option (Option String) := none
  readTime : Option (Option String) := none
  featured : Option (Option Bool) := none
  status : Option (Option String) := none
deriving DecidableEq, Repr

/-- The argument object of `createPost` (as assembled by the admin POST
route); absent keys and `undefined` values coincide here because the new
post object is built by spreading it once. -/
structure NewPost where
  title : Option String := none
  slug : Option String := none
  excerpt : Option String := none
  content : Option String := none
  author : Option String := none
  category : Option String := none
  tags : Option (List String) := none
  image : Option String := none
  publishedDate : Option String := none
  scheduledPublishDate : Option String := none
  readTime : Option String := none
  featured : Option Bool := none
  status : Option String := none
deriving DecidableEq, Repr

/-- The slice of `InMemoryDatabase` state the claims are about
(`this.posts` and `this.categories`; comments/users/settings omitted). -/
structure MemState where
  posts : List Post
  categories : List String
deriving DecidableEq, Repr

/-- The slice of the PostgreSQL database the claims are about: the rows of
the `posts` table and the `name` column of the `categories` table. -/
structure PGState where
  posts : List Post
  categories : List String
deriving DecidableEq, Repr

/-- The active backend object returned by `initializeDatabase`. -/
inductive Database where
  | memory : MemState → Database
  | postgres : PGState → Database
deriving DecidableEq, Repr

/-! ## In-memory backend (`InMemoryDatabase`) -/

/-- The object spread `{...this.posts[index], ...updates, updatedAt: new Date()}`
performed by `InMemoryDatabase.updatePost`: every field whose key is present
on `updates` overwrites the stored field (even with `undefined`), absent
keys keep the stored value, and `updatedAt` is always refreshed. -/
def applyUpdates (p : Post) (u : PostUpdates) (now : Int) : Post :=
  { id := p.id
    title := u.title.getD p.title
    slug := u.slug.getD p.slug
    excerpt := u.excerpt.getD p.excerpt
    content := u.content.getD p.content
    author := u.author.getD p.author
    category := u.category.getD p.category
    tags := u.tags.getD p.tags
    image := u.image.getD p.image
    publishedDate := u.publishedDate.getD p.publishedDate
    scheduledPublishDate := u.scheduledPublishDate.getD p.scheduledPublishDate
    readTime := u.readTime.getD p.readTime
    featured := u.featured.getD p.featured
    status := u.status.getD p.status
    createdAt := p.createdAt
    updatedAt := now
    commentCount := p.commentCount }

/-- `InMemoryDatabase.updatePost(id, updates)`: finds the first post with the
given id (`findIndex`), throws `'Post not found'` if there is none (leaving
the array untouched, since the throw happens before any mutation), otherwise
replaces that element by the spread-merge and returns it. -/
def updatePostMem (now : Int) (id : String) (u : PostUpdates) :
    List Post → Except String (List Post × Post)
  | [] => .error "Post not found"
  | p :: ps =>
    if p.id = id then
      let p' := applyUpdates p u now
      .ok (p' :: ps, p')
    else
      match updatePostMem now id u ps with
      | .error e => .error e
      | .ok (ps', q) => .ok (p :: ps', q)

/-- `InMemoryDatabase.createPost(post)`: assigns the given fresh id
(`Date.now().toString()` in the source), normalizes `status` to
`'published'`/`'draft'`, coerces `featured` with `!!`, defaults
`publishedDate` to now's ISO string when publishing without one
(`post.publishedDate || new Date().toISOString()`, so an empty string also
defaults), stamps `createdAt`/`updatedAt`, zeroes `commentCount` and pushes
the new post.  No slug-uniqueness check is performed. -/
def createPostMem (newId : String) (now : Int) (nowIso : String) (np : NewPost)
    (s : MemState) : MemState × Post :=
  let status := if np.status = some "published" then "published" else "draft"
  let pubD : Option String :=
    if status = "published" then
      match np.publishedDate with
      | some d => if d = "" then some nowIso else some d
      | none => some nowIso
    else np.publishedDate
  let p : Post :=
    { id := newId
      title := np.title
      slug := np.slug
      excerpt := np.excerpt
      content := np.content
      author := np.author
      category := np.category
      tags := np.tags
      image := np.image
      publishedDate := pubD
      scheduledPublishDate := np.scheduledPublishDate
      readTime := np.readTime
      featured := some (np.featured.getD false)
      status := some status
      createdAt := now
      updatedAt := now
      commentCount := 0 }
  ({ s with posts := s.posts ++ [p] }, p)

/-- Optional filters of `getPosts` (`{category?, featured?}`). -/
structure PostFilters where
  category : Option String := none
  featured : Option Bool := none
deriving DecidableEq, Repr

/-- Sort key derived from `new Date(p.publishedDate)`: unparseable or absent
dates (`NaN`) are mapped to 0; the comparator's behaviour on `NaN` is
implementation-defined in JavaScript and no claim depends on the order. -/
def pubKey (parse : String → Option Int) (p : Post) : Int :=
  match p.publishedDate with
  | none => 0
  | some d => (parse d).getD 0

/-- `InMemoryDatabase.getPosts(filters)`: keeps only `status === 'published'`
posts, applies the category filter when `filters.category` is truthy
(a non-empty string) and the featured filter when `filters.featured` is not
`undefined`, then sorts by parsed `publishedDate` descending. -/
def getPostsMem (parse : String → Option Int) (filters : PostFilters)
    (posts : List Post) : List Post :=
  let l1 := posts.filter (fun p => p.status = some "published")
  let l2 :=
    match filters.category with
    | none => l1
    | some c => if c = "" then l1 else l1.filter (fun p => p.category = some c)
  let l3 :=
    match filters.featured with
    | none => l2
    | some f => l2.filter (fun p => p.featured = some f)
  sortByComp (fun a b => decide (pubKey parse b ≤ pubKey parse a)) l3

/-- The predicate of `InMemoryDatabase.searchPosts`, evaluated left to right
with JavaScript short-circuiting: `p.title.toLowerCase().includes(q) ||
p.content.toLowerCase().includes(q) || p.tags.some(tag => tag.includes(q))`.
The query `q` is already lower-cased by the caller; the TAGS themselves are
NOT lower-cased by the source.  Returns `none` when the evaluation would
throw a `TypeError` (dereferencing an `undefined` title/content/tags). -/
def searchMatch (q : String) (p : Post) : Option Bool :=
  match p.title with
  | none => none
  | some title =>
    if strContains (jsToLower title) q then some true
    else
      match p.content with
      | none => none
      | some content =>
        if strContains (jsToLower content) q then some true
        else
          match p.tags with
          | none => none
          | some tags => some (tags.any (fun tag => strContains tag q))

/-- `Array.prototype.filter` with a predicate that can throw: elements are
tested left to right and the first thrown error aborts the whole call
(modelled by `none`). -/
def filterThrowing {α : Type} (f : α → Option Bool) : List α → Option (List α)
  | [] => some []
  | a :: l =>
    match f a with
    | none => none
    | some b =>
      match filterThrowing f l with
      | none => none
      | some l' => some (if b then a :: l' else l')

/-- `InMemoryDatabase.searchPosts(query)`: lower-cases the query once and
filters `this.posts` (all posts, regardless of status) with `searchMatch`. -/
def searchPostsMem (query : String) (posts : List Post) : Option (List Post) :=
  filterThrowing (searchMatch (jsToLower query)) posts

/-- `InMemoryDatabase.getCategories()`: the deduplicated union of
`this.categories`, the categories used by posts (`filter(Boolean)` drops
`undefined` and empty strings), and `'Algemeen'`, in `Set` insertion
order. -/
def getCategoriesMem (s : MemState) : List String :=
  let fromPosts :=
    dedupFirst ((s.posts.filterMap Post.category).filter (fun c => decide (c ≠ "")))
  dedupFirst (s.categories ++ fromPosts ++ ["Algemeen"])

/-- `InMemoryDatabase.addCategory(name)`: trims the name, throws
`'Category name required'` when empty, and pushes the trimmed name unless an
equal-ignoring-case entry already exists in `this.categories`.  Returns the
new state together with `getCategories()` of that state. -/
def addCategoryMem (name : String) (s : MemState) :
    Except String (MemState × List String) :=
  let n := jsTrim name
  if n = "" then .error "Category name required"
  else
    let already := s.categories.any (fun c => jsToLower c = jsToLower n)
    let s' := if already then s else { s with categories := s.categories ++ [n] }
    .ok (s', getCategoriesMem s')

/-! ## PostgreSQL backend (`PostgreSQLDatabase`)

Rows of the `posts` table are represented with the same `Post` structure
(`none` = SQL `NULL`); the camel-case/snake-case translation at the mapper
boundary is transparent here. -/

/-- Whether `PostgreSQLDatabase.updatePost` builds at least one `SET`
clause: every key of the updates object whose snake-cased name is in the
allow-list `['title','slug','excerpt','content','author','category','tags',
'image','published_date','read_time','featured','status']` contributes one.
`scheduledPublishDate` is NOT in the allow-list and is silently dropped. -/
def pgHasUpdates (u : PostUpdates) : Bool :=
  u.title.isSome || u.slug.isSome || u.excerpt.isSome || u.content.isSome ||
  u.author.isSome || u.category.isSome || u.tags.isSome || u.image.isSome ||
  u.publishedDate.isSome || u.readTime.isSome || u.featured.isSome ||
  u.status.isSome

/-- The effect of the SQL `UPDATE posts SET ...` row assignment built by
`PostgreSQLDatabase.updatePost`: allow-listed present keys overwrite the
row's columns (an `undefined` value arrives as `NULL`), `scheduledPublishDate`
is dropped, and `updated_at` is set to the update time. -/
def applyUpdatesPG (p : Post) (u : PostUpdates) (now : Int) : Post :=
  { id := p.id
    title := u.title.getD p.title
    slug := u.slug.getD p.slug
    excerpt := u.excerpt.getD p.excerpt
    content := u.content.getD p.content
    author := u.author.getD p.author
    category := u.category.getD p.category
    tags := u.tags.getD p.tags
    image := u.image.getD p.image
    publishedDate := u.publishedDate.getD p.publishedDate
    scheduledPublishDate := p.scheduledPublishDate
    readTime := u.readTime.getD p.readTime
    featured := u.featured.getD p.featured
    status := u.status.getD p.status
    createdAt := p.createdAt
    updatedAt := now
    commentCount := p.commentCount }

/-- `SELECT * FROM posts WHERE id = $1` followed by `rows[0]`. -/
def getPostByIdPG (rows : List Post) (id : String) : Option Post :=
  rows.find? (fun p => p.id = id)

/-- `PostgreSQLDatabase.updatePost(id, updates)`: when no allow-listed field
is present it returns `getPostById(id)` without touching the table;
otherwise it runs `UPDATE posts SET ... WHERE id = $n` (a no-op when no row
has that id — no error is raised) and returns `getPostById(id)`, which is
`null` for an unknown id. -/
def updatePostPG (now : Int) (id : String) (u : PostUpdates) (rows : List Post) :
    List Post × Option Post :=
  if pgHasUpdates u then
    let rows' := rows.map (fun p => if p.id = id then applyUpdatesPG p u now else p)
    (rows', getPostByIdPG rows' id)
  else
    (rows, getPostByIdPG rows id)

/-- `PostgreSQLDatabase.getPosts(filters)`: `WHERE status = 'published'`
plus the optional category/featured clauses (added under the same JavaScript
truthiness conditions as the in-memory backend), `ORDER BY published_date
DESC`. -/
def getPostsPG (parse : String → Option Int) (filters : PostFilters)
    (rows : List Post) : List Post :=
  let l1 := rows.filter (fun p => p.status = some "published")
  let l2 :=
    match filters.category with
    | none => l1
    | some c => if c = "" then l1 else l1.filter (fun p => p.category = some c)
  let l3 :=
    match filters.featured with
    | none => l2
    | some f => l2.filter (fun p => p.featured = some f)
  sortByComp (fun a b => decide (pubKey parse b ≤ pubKey parse a)) l3

/-- The text rendering of the `tags` JSONB column used by
`tags::text LIKE $1` (PostgreSQL prints jsonb arrays as `["a", "b"]`). -/
def tagsJsonText (tags : List String) : String :=
  "[" ++ String.intercalate ", " (tags.map (fun t => "\"" ++ t ++ "\"")) ++ "]"

/-- The row predicate of `PostgreSQLDatabase.searchPosts`:
`LOWER(title) LIKE '%q%' OR LOWER(content) LIKE '%q%' OR tags::text LIKE '%q%'`
with `q` the lower-cased query.  `LIKE` on a `NULL` column is not true; the
`%q%` pattern is modelled as substring containment (`LIKE` metacharacters
inside the query itself are not modelled).  Note that `tags::text` keeps the
tags' original letter case. -/
def pgSearchMatch (q : String) (p : Post) : Bool :=
  (match p.title with
   | none => false
   | some t => strContains (jsToLower t) q) ||
  (match p.content with
   | none => false
   | some c => strContains (jsToLower c) q) ||
  strContains (tagsJsonText (p.tags.getD [])) q

/-- `PostgreSQLDatabase.searchPosts(query)`: no status clause at all;
`ORDER BY published_date DESC`. -/
def searchPostsPG (parse : String → Option Int) (query : String)
    (rows : List Post) : List Post :=
  sortByComp (fun a b => decide (pubKey parse b ≤ pubKey parse a))
    (rows.filter (pgSearchMatch (jsToLower query)))

/-- `PostgreSQLDatabase.getCategories()`: `SELECT name FROM categories ORDER
BY name`, then `'Algemeen'` is appended if (and only if) missing.
Categories merely used by posts are NOT consulted. -/
def getCategoriesPG (t : PGState) : List String :=
  let categories := sortByComp strLe t.categories
  if "Algemeen" ∈ categories then categories else categories ++ ["Algemeen"]

/-- `PostgreSQLDatabase.addCategory(name)`: trims, throws
`'Category name required'` when empty, then
`INSERT INTO categories (name) VALUES ($1) ON CONFLICT (name) DO NOTHING` —
the conflict target is the exact (case-sensitive) `name` column, so a name
differing only in letter case is inserted as a new row.  Returns the new
state with `getCategories()` of it. -/
def addCategoryPG (name : String) (t : PGState) :
    Except String (PGState × List String) :=
  let n := jsTrim name
  if n = "" then .error "Category name required"
  else
    let t' := if n ∈ t.categories then t else { t with categories := t.categories ++ [n] }
    .ok (t', getCategoriesPG t')

/-- The `slug VARCHAR(255) UNIQUE NOT NULL` (and `id ... PRIMARY KEY`)
constraints of `createTables`: `PostgreSQLDatabase.createPost`'s `INSERT`
raises a unique-violation error when the slug (or id) already occurs. -/
def createPostPG (newId : String) (now : Int) (nowIso : String) (np : NewPost)
    (t : PGState) : Except String (PGState × Option Post) :=
  let status := if np.status = some "published" then "published" else "draft"
  let pubD : Option String :=
    if status = "published" then
      match np.publishedDate with
      | some d => if d = "" then some nowIso else some d
      | none => some nowIso
    else np.publishedDate
  let row : Post :=
    { id := newId
      title := np.title
      slug := np.slug
      excerpt := some (np.excerpt.getD "")
      content := some (np.content.getD "")
      author := some (np.author.getD "")
      category := some (np.category.getD "")
      tags := some (np.tags.getD [])
      image := some (np.image.getD "")
      publishedDate := pubD
      scheduledPublishDate := none
      readTime := some (np.readTime.getD "")
      featured := some (np.featured.getD false)
      status := some status
      createdAt := now
      updatedAt := now
      commentCount := 0 }
  if np.slug = none then .error "null value in column slug violates not-null constraint"
  else if t.posts.any (fun p => p.id = newId ∨ p.slug = np.slug) then
    .error "duplicate key value violates unique constraint"
  else
    .ok ({ t with posts := t.posts ++ [row] }, getPostByIdPG (t.posts ++ [row]) newId)

/-! ## Publish scheduler (`startServer`'s `setInterval` callback)

```js
setInterval(async () => {
  try {
    const now = new Date();
    const posts = db.posts || [];
    for (const p of posts) {
      if (p.status !== 'published' && p.scheduledPublishDate) {
        const when = new Date(p.scheduledPublishDate);
        if (!isNaN(when.getTime()) && when <= now) {
          await db.updatePost(p.id, {
            status: 'published',
            publishedDate: new Date().toISOString(),
            scheduledPublishDate: undefined
          });
        }
      }
    }
  } catch (e) { console.error('[Scheduler] Error:', e.message); }
}, 60 * 1000);
```

The single `try`/`catch` wraps the WHOLE loop.  A per-post injected failure
of the awaited `db.updatePost` (modelled by the oracle `fail : String →
Bool` on post ids, standing for any error thrown during that update) is
therefore caught outside the loop: it aborts the remainder of the scan for
that tick, but never escapes the interval callback. -/

/-- `db.posts || []`: `InMemoryDatabase` keeps its posts in the `posts`
property; the `PostgreSQLDatabase` class declares no such property, so the
access yields `undefined` and the guard produces `[]`. -/
def dbPostsField : Database → Option (List Post)
  | .memory s => some s.posts
  | .postgres _ => none

/-- The list the scheduler tick iterates: `db.posts || []`. -/
def dbPostsOrEmpty (db : Database) : List Post :=
  (dbPostsField db).getD []

/-- `db.updatePost` dispatched on the active backend: the in-memory variant
can throw `'Post not found'`, the PostgreSQL variant never throws for an
unknown id. -/
def dbUpdatePost (now : Int) (id : String) (u : PostUpdates) :
    Database → Except String Database
  | .memory s =>
    match updatePostMem now id u s.posts with
    | .error e => .error e
    | .ok (ps, _) => .ok (.memory { s with posts := ps })
  | .postgres t => .ok (.postgres { t with posts := (updatePostPG now id u t.posts).1 })

/-- JavaScript truthiness of `p.scheduledPublishDate`: a present, non-empty
string. -/
def schedTruthy : Option String → Bool
  | none => false
  | some s => decide (s ≠ "")

/-- The tick's per-post condition: non-published status, truthy
`scheduledPublishDate`, parseable (`!isNaN`) and `when <= now`. -/
def isDue (parse : String → Option Int) (now : Int) (p : Post) : Bool :=
  decide (p.status ≠ some "published") &&
  (match p.scheduledPublishDate with
   | none => false
   | some d =>
     decide (d ≠ "") &&
     (match parse d with
      | none => false
      | some t => decide (t ≤ now)))

/-- The updates object the scheduler passes to `db.updatePost`:
`{status: 'published', publishedDate: nowIso, scheduledPublishDate: undefined}`
— the `scheduledPublishDate` KEY is present with value `undefined`. -/
def promoteUpdates (nowIso : String) : PostUpdates :=
  { status := some (some "published")
    publishedDate := some (some nowIso)
    scheduledPublishDate := some none }

/-- The scheduler's `for (const p of posts)` loop: `i` is the iteration
index into the LIVE array (updates are visible to later iterations), `fuel`
is the number of remaining iterations (the array's length never changes).
A due post whose update throws (`fail p.id`, or a `'Post not found'` throw)
propagates to the tick-level `catch`: the function returns the state
reached so far and the remaining posts are not visited in this tick. -/
def schedulerLoop (parse : String → Option Int) (now : Int) (nowIso : String)
    (fail : String → Bool) : Nat → Nat → Database → Database
  | 0, _, db => db
  | fuel + 1, i, db =>
    match (dbPostsOrEmpty db)[i]? with
    | none => db
    | some p =>
      if isDue parse now p then
        if fail p.id then db
        else
          match dbUpdatePost now p.id (promoteUpdates nowIso) db with
          | .error _ => db
          | .ok db' => schedulerLoop parse now nowIso fail fuel (i + 1) db'
      else schedulerLoop parse now nowIso fail fuel (i + 1) db

/-- One scheduler tick over the active backend. -/
def schedulerTick (parse : String → Option Int) (now : Int) (nowIso : String)
    (fail : String → Bool) (db : Database) : Database :=
  schedulerLoop parse now nowIso fail (dbPostsOrEmpty db).length 0 db

/-- What one fault-free tick does to a single post: a due post is promoted
by the spread-merge with `promoteUpdates`, any other post is untouched. -/
def tickStep (parse : String → Option Int) (now : Int) (nowIso : String)
    (p : Post) : Post :=
  if isDue parse now p then applyUpdates p (promoteUpdates nowIso) now else p

/-! ## Admin routes (`admin.js`) -/

/-- The JSON body of `PUT /api/admin/posts/:id` after destructuring
`const { title, slug, excerpt, content, category, tags, image, author,
status, featured } = req.body;` — each binding is `none` when the caller
omitted the key. -/
structure PutBody where
  title : Option String := none
  slug : Option String := none
  excerpt : Option String := none
  content : Option String := none
  category : Option String := none
  tags : Option (List String) := none
  image : Option String := none
  author : Option String := none
  status : Option String := none
  featured : Option Bool := none
deriving DecidableEq, Repr

/-- The updates object the PUT route passes to `database.updatePost`: all
ten contract keys are present on the object literal, each carrying the
destructured body value — `undefined` (inner `none`) whenever the request
body omitted the field. -/
def adminPutUpdates (b : PutBody) : PostUpdates :=
  { title := some b.title
    slug := some b.slug
    excerpt := some b.excerpt
    content := some b.content
    category := some b.category
    tags := some b.tags
    image := some b.image
    author := some b.author
    status := some b.status
    featured := some b.featured
    publishedDate := none
    scheduledPublishDate := none
    readTime := none }

/-! ## Sample data (`loadSampleData`)

The three seed posts of the in-memory backend.  `createdAt`/`updatedAt` are
the epoch-millisecond values of the seed dates. -/

def seedPost1 : Post :=
  { id := "1"
    title := some "Hoe organiseer je de perfecte pubquiz?"
    slug := some "perfecte-pubquiz-organiseren"
    excerpt := some "Een stap-voor-stap gids met 10 gouden tips voor het organiseren van een pubquiz."
    content := some "# Hoe organiseer je de perfecte pubquiz?\n\nOrganiseren van een pubquiz..."
    author := some "PubQuiz Team"
    category := some "Tips & Tricks"
    tags := some ["pubquiz", "tips", "organiseren"]
    image := some "https://images.unsplash.com/photo-1552664730-d307ca884978?w=600&h=400&fit=crop"
    publishedDate := some "2025-11-12"
    scheduledPublishDate := none
    readTime := some "5 min"
    featured := some true
    status := some "published"
    createdAt := 1762905600000
    updatedAt := 1762905600000
    commentCount := 0 }

def seedPost2 : Post :=
  { id := "2"
    title := some "Team Building Door Quiz: Case Study TechCorp"
    slug := some "team-building-case-study"
    excerpt := some "Lees hoe TechCorp hun team building transformeerde met PubQuiz.pro."
    content := some "# Team Building Door Quiz\n\nTeam building..."
    author := some "Sarah Jansen"
    category := some "Case Studies"
    tags := some ["team-building", "case-study"]
    image := some "https://images.unsplash.com/photo-1552664730-d307ca884978?w=600&h=400&fit=crop"
    publishedDate := some "2025-11-08"
    scheduledPublishDate := none
    readTime := some "6 min"
    featured := some true
    status := some "published"
    createdAt := 1762560000000
    updatedAt := 1762560000000
    commentCount := 0 }

def seedPost3 : Post :=
  { id := "3"
    title := some "Horeca Quiz Avonden: Meer Gasten, Meer Inkomsten"
    slug := some "horeca-quiz-meer-bezoekers"
    excerpt := some "Hoe horecaondernemers quiz avonden gebruiken om meer gasten te trekken."
    content := some "# Horeca Quiz Avonden\n\nQuiz avonden zijn..."
    author := some "Mark van Dijk"
    category := some "Horeca"
    tags := some ["horeca", "marketing"]
    image := some "https://images.unsplash.com/photo-1552664730-d307ca884978?w=600&h=400&fit=crop"
    publishedDate := some "2025-11-03"
    scheduledPublishDate := none
    readTime := some "7 min"
    featured := some false
    status := some "published"
    createdAt := 1762128000000
    updatedAt := 1762128000000
    commentCount := 0 }

/-- The in-memory backend's constructor categories. -/
def seedCategories : List String :=
  ["Tips & Tricks", "Case Studies", "Horeca", "Team Building", "Onderwijs",
   "Product Updates", "Algemeen"]

/-- The in-memory state right after `loadSampleData`. -/
def seedMemState : MemState :=
  { posts := [seedPost1, seedPost2, seedPost3], categories := seedCategories }

/-! ## Concrete inputs for witnesses and counterexamples -/

/-- A minimal draft post used in concrete instances. -/
def draftPost (id : String) (sched : Option String) : Post :=
  { id := id
    title := some "Draft title"
    slug := some ("draft-" ++ id)
    excerpt := none
    content := some "Draft content"
    author := some "Admin"
    category := some "Algemeen"
    tags := some ["tag"]
    image := none
    publishedDate := none
    scheduledPublishDate := sched
    readTime := none
    featured := some false
    status := some "draft"
    createdAt := 0
    updatedAt := 0
    commentCount := 0 }

/-- A concrete `new Date(s)` parse used by witnesses: the scheduler's date
strings in the concrete states below are decimal epoch numbers `"0"`..`"99"`;
anything else is an invalid date. -/
def tinyParse (s : String) : Option Int :=
  if s = "0" then some 0
  else if s = "5" then some 5
  else if s = "7" then some 7
  else if s = "99" then some 99
  else none

/-! ## Helper lemmas about `updatePost` and the scheduler loop -/

theorem applyUpdates_id (p : Post) (u : PostUpdates) (now : Int) :
    (applyUpdates p u now).id = p.id := rfl

theorem updatePostMem_notFound (now : Int) (id : String) (u : PostUpdates)
    (posts : List Post) (h : id ∉ posts.map Post.id) :
    updatePostMem now id u posts = .error "Post not found" := by
  induction posts with
  | nil => rfl
  | cons p ps ih =>
    simp only [List.map_cons, List.mem_cons] at h
    push_neg at h
    simp only [updatePostMem]
    rw [if_neg fun he => h.1 he.symm, ih h.2]

theorem updatePostMem_at (now : Int) (u : PostUpdates) :
    ∀ (posts : List Post) (i : Nat) (p : Post),
      (posts.map Post.id).Nodup → posts[i]? = some p →
      updatePostMem now p.id u posts =
        .ok (posts.set i (applyUpdates p u now), applyUpdates p u now) := by
  intro posts
  induction posts with
  | nil => intro i p _ h; simp at h
  | cons q ps ih =>
    intro i p hnd hget
    match i with
    | 0 =>
      simp only [List.getElem?_cons_zero, Option.some_inj] at hget
      subst hget
      simp [updatePostMem]
    | Nat.succ j =>
      simp only [List.getElem?_cons_succ] at hget
      have hmem : p ∈ ps := List.getElem?_mem hget
      simp only [List.map_cons, List.nodup_cons] at hnd
      have hne : ¬ (q.id = p.id) := fun he =>
        hnd.1 (he ▸ List.mem_map_of_mem Post.id hmem)
      simp only [updatePostMem]
      rw [if_neg hne, ih j p hnd.2 hget]
      simp [List.set_cons_succ]

theorem set_self_of_getElem? {α : Type} (l : List α) (i : Nat) (a : α)
    (h : l[i]? = some a) : l.set i a = l := by
  apply List.ext_getElem?
  intro n
  rw [List.getElem?_set]
  split
  · rename_i he
    subst he
    rw [if_pos, h]
    exact (List.getElem?_eq_some.mp h).1
  · rfl

theorem map_id_set (posts : List Post) (i : Nat) (p q : Post)
    (hp : posts[i]? = some p) (hq : q.id = p.id) :
    (posts.set i q).map Post.id = posts.map Post.id := by
  rw [List.map_set]
  apply set_self_of_getElem?
  rw [List.getElem?_map, hp, hq]
  rfl

theorem take_set_self {α : Type} (l : List α) (i : Nat) (a : α) :
    (l.set i a).take i = l.take i := by
  apply List.ext_getElem?
  intro n
  rw [List.getElem?_take, List.getElem?_take]
  by_cases hn : n < i
  · rw [if_pos hn, if_pos hn, List.getElem?_set, if_neg (by omega)]
  · rw [if_neg hn, if_neg hn]

theorem set_take_succ {α : Type} (l : List α) (i : Nat) (a : α)
    (h : i < l.length) : (l.set i a).take (i + 1) = l.take i ++ [a] := by
  rw [List.take_succ, take_set_self, List.getElem?_set_self h]
  rfl

theorem set_drop_succ {α : Type} (l : List α) (i : Nat) (a : α) :
    (l.set i a).drop (i + 1) = l.drop (i + 1) := by
  rw [List.drop_set, if_pos (by omega)]

theorem schedulerLoop_memory (parse : String → Option Int) (now : Int) (nowIso : String) :
    ∀ (fuel i : Nat) (s : MemState),
      (s.posts.map Post.id).Nodup → i + fuel = s.posts.length →
      schedulerLoop parse now nowIso (fun _ => false) fuel i (.memory s) =
        .memory { s with
          posts := s.posts.take i ++
            (s.posts.drop i).map (tickStep parse now nowIso) } := by
  intro fuel
  induction fuel with
  | zero =>
    intro i s hnd hlen
    have hi : i = s.posts.length := by omega
    subst hi
    simp only [schedulerLoop, List.take_length, List.drop_length, List.map_nil,
      List.append_nil]
  | succ fuel ih =>
    intro i s hnd hlen
    have hi : i < s.posts.length := by omega
    have hp : s.posts[i]? = some s.posts[i] := List.getElem?_eq_getElem hi
    have hdb : dbPostsOrEmpty (Database.memory s) = s.posts := rfl
    simp only [schedulerLoop, hdb, hp]
    by_cases hdue : isDue parse now s.posts[i] = true
    · rw [if_pos hdue, if_neg (by simp)]
      have hup := updatePostMem_at now (promoteUpdates nowIso) s.posts i s.posts[i] hnd hp
      simp only [dbUpdatePost, hup]
      have hnd' : (((s.posts.set i
          (applyUpdates s.posts[i] (promoteUpdates nowIso) now)).map Post.id)).Nodup := by
        rw [map_id_set s.posts i s.posts[i] _ hp (applyUpdates_id _ _ _)]
        exact hnd
      have hlen' : (i + 1) + fuel =
          (s.posts.set i (applyUpdates s.posts[i] (promoteUpdates nowIso) now)).length := by
        rw [List.length_set]; omega
      rw [ih (i + 1) _ hnd' hlen']
      have hposts :
          (s.posts.set i (applyUpdates s.posts[i] (promoteUpdates nowIso) now)).take (i + 1) ++
            ((s.posts.set i (applyUpdates s.posts[i] (promoteUpdates nowIso) now)).drop
              (i + 1)).map (tickStep parse now nowIso) =
          s.posts.take i ++ (s.posts.drop i).map (tickStep parse now nowIso) := by
        rw [set_take_succ _ _ _ hi, set_drop_succ, List.drop_eq_getElem_cons hi]
        simp only [List.map_cons]
        rw [show tickStep parse now nowIso s.posts[i] =
          applyUpdates s.posts[i] (promoteUpdates nowIso) now from by
            rw [tickStep, if_pos hdue]]
        rw [List.append_assoc, List.singleton_append]
      simp only [hposts]
    · rw [if_neg hdue]
      rw [ih (i + 1) s hnd (by omega)]
      have hposts : s.posts.take (i + 1) ++
            (s.posts.drop (i + 1)).map (tickStep parse now nowIso) =
          s.posts.take i ++ (s.posts.drop i).map (tickStep parse now nowIso) := by
        rw [List.take_succ, hp, List.drop_eq_getElem_cons hi]
        simp only [Option.toList_some, List.map_cons]
        rw [show tickStep parse now nowIso s.posts[i] = s.posts[i] from by
          rw [tickStep, if_neg hdue]]
        rw [List.append_assoc, List.singleton_append]
      simp only [hposts]

/-- A fault-free scheduler tick over the in-memory backend maps `tickStep`
over the posts array in place (for stores with distinct post ids). -/
theorem schedulerTick_memory (parse : String → Option Int) (now : Int)
    (nowIso : String) (s : MemState) (hnd : (s.posts.map Post.id).Nodup) :
    schedulerTick parse now nowIso (fun _ => false) (.memory s) =
      .memory { s with posts := s.posts.map (tickStep parse now nowIso) } := by
  unfold schedulerTick
  rw [show dbPostsOrEmpty (.memory s) = s.posts from rfl]
  rw [schedulerLoop_memory parse now nowIso s.posts.length 0 s hnd (by omega)]
  simp

/-- If the first post of the array is due and its update throws, the
tick-level `catch` aborts the whole scan there: nothing at all is promoted
in that tick. -/
theorem schedulerTick_abortFirst (parse : String → Option Int) (now : Int)
    (nowIso : String) (g : String → Bool) (p : Post) (rest : List Post)
    (cats : List String) (hdue : isDue parse now p = true) (hg : g p.id = true) :
    schedulerTick parse now nowIso g (.memory ⟨p :: rest, cats⟩) =
      .memory ⟨p :: rest, cats⟩ := by
  unfold schedulerTick
  rw [show dbPostsOrEmpty (.memory ⟨p :: rest, cats⟩) = p :: rest from rfl]
  simp only [List.length_cons, schedulerLoop]
  simp [dbPostsOrEmpty, dbPostsField, hdue, hg]

/-! ## Helper lemmas about search, listing and PG update -/

theorem filterThrowing_eq_filter {α : Type} (f : α → Option Bool) (l : List α)
    (h : ∀ x ∈ l, (f x).isSome) :
    filterThrowing f l = some (l.filter (fun x => (f x).getD false)) := by
  induction l with
  | nil => rfl
  | cons a l ih =>
    have ha := h a (List.mem_cons_self a l)
    obtain ⟨b, hb⟩ := Option.isSome_iff_exists.mp ha
    simp only [filterThrowing, hb,
      ih (fun x hx => h x (List.mem_cons_of_mem a hx))]
    cases b <;> simp [List.filter_cons, hb]

/-- On a post whose `title`, `content` and `tags` are all defined, the
search predicate never throws and computes the disjunction of the three
matches. -/
theorem searchMatch_defined (q : String) (p : Post) (t c : String)
    (tg : List String) (ht : p.title = some t) (hc : p.content = some c)
    (htg : p.tags = some tg) :
    searchMatch q p = some (strContains (jsToLower t) q ||
      strContains (jsToLower c) q || tg.any (fun tag => strContains tag q)) := by
  simp only [searchMatch, ht, hc, htg]
  by_cases h1 : strContains (jsToLower t) q = true
  · simp [h1]
  · simp only [Bool.not_eq_true] at h1
    by_cases h2 : strContains (jsToLower c) q = true
    · simp [h1, h2]
    · simp only [Bool.not_eq_true] at h2
      simp [h1, h2]

theorem mem_getPostsMem_published (parse : String → Option Int)
    (filters : PostFilters) (posts : List Post) (p : Post)
    (h : p ∈ getPostsMem parse filters posts) : p.status = some "published" := by
  obtain ⟨cat, feat⟩ := filters
  have h1 : p ∈ posts.filter (fun q => q.status = some "published") := by
    rcases cat with _ | c <;> rcases feat with _ | f <;>
      simp only [getPostsMem, mem_sortByComp] at h
    · exact h
    · exact List.mem_of_mem_filter h
    · split at h
      · exact h
      · exact List.mem_of_mem_filter h
    · have h2 := List.mem_of_mem_filter h
      split at h2
      · exact h2
      · exact List.mem_of_mem_filter h2
  simpa using (List.mem_filter.mp h1).2

theorem mem_getPostsPG_published (parse : String → Option Int)
    (filters : PostFilters) (rows : List Post) (p : Post)
    (h : p ∈ getPostsPG parse filters rows) : p.status = some "published" := by
  obtain ⟨cat, feat⟩ := filters
  have h1 : p ∈ rows.filter (fun q => q.status = some "published") := by
    rcases cat with _ | c <;> rcases feat with _ | f <;>
      simp only [getPostsPG, mem_sortByComp] at h
    · exact h
    · exact List.mem_of_mem_filter h
    · split at h
      · exact h
      · exact List.mem_of_mem_filter h
    · have h2 := List.mem_of_mem_filter h
      split at h2
      · exact h2
      · exact List.mem_of_mem_filter h2
  simpa using (List.mem_filter.mp h1).2

theorem updatePostPG_unknown (now : Int) (id : String) (u : PostUpdates)
    (rows : List Post) (h : id ∉ rows.map Post.id) :
    updatePostPG now id u rows = (rows, none) := by
  have hne : ∀ p ∈ rows, ¬ (p.id = id) := by
    intro p hp he
    exact h (he ▸ List.mem_map_of_mem Post.id hp)
  have hmap : rows.map (fun p => if p.id = id then applyUpdatesPG p u now else p) = rows := by
    conv_rhs => rw [← List.map_id rows]
    exact List.map_congr_left fun a ha => by rw [if_neg (hne a ha)]; rfl
  have hfind : getPostByIdPG rows id = none := by
    unfold getPostByIdPG
    rw [List.find?_eq_none]
    intro p hp
    simpa using hne p hp
  unfold updatePostPG
  split
  · simp only [hmap, hfind]
  · simp only [hfind]

/-- Decidable equality for `Except`, so that concrete runs of the fallible
operations can be checked by `decide`. -/
instance instDecEqExcept {e a : Type} [DecidableEq e] [DecidableEq a] :
    DecidableEq (Except e a) := fun x y =>
  match x, y with
  | .error u, .error v =>
    if h : u = v then isTrue (congrArg Except.error h)
    else isFalse fun hc => h (Except.error.inj hc)
  | .ok u, .ok v =>
    if h : u = v then isTrue (congrArg Except.ok h)
    else isFalse fun hc => h (Except.ok.inj hc)
  | .error _, .ok _ => isFalse fun hc => Except.noConfusion hc
  | .ok _, .error _ => isFalse fun hc => Except.noConfusion hc

/-! ## Claims -/

/-- C2: A fault-free scheduler tick over the in-memory backend (with
distinct post ids) rewrites the posts array to `map tickStep`: it promotes
exactly the posts that are non-published and carry a truthy, parseable
`scheduledPublishDate` that is not after `now` — each such post gets
`status = 'published'`, `publishedDate` = the tick's ISO timestamp, and its
`scheduledPublishDate` cleared — posts with an unparseable date are skipped
(left unchanged), and a second tick (at any later time) leaves a post
promoted by the first tick unchanged. -/
theorem claim_c2_tick_promotes_exactly_due (parse : String → Option Int)
    (now : Int) (nowIso : String) (s : MemState)
    (hnd : (s.posts.map Post.id).Nodup) :
    schedulerTick parse now nowIso (fun _ => false) (.memory s) =
      .memory { s with posts := s.posts.map (tickStep parse now nowIso) } ∧
    (∀ p : Post, isDue parse now p = true ↔
      (p.status ≠ some "published" ∧ ∃ d, p.scheduledPublishDate = some d ∧
        d ≠ "" ∧ ∃ t, parse d = some t ∧ t ≤ now)) ∧
    (∀ p : Post, isDue parse now p = true →
      tickStep parse now nowIso p = applyUpdates p (promoteUpdates nowIso) now ∧
      (tickStep parse now nowIso p).status = some "published" ∧
      (tickStep parse now nowIso p).publishedDate = some nowIso ∧
      (tickStep parse now nowIso p).scheduledPublishDate = none) ∧
    (∀ p : Post, isDue parse now p = false → tickStep parse now nowIso p = p) ∧
    (∀ (parse2 : String → Option Int) (now2 : Int) (iso2 : String) (p : Post),
      isDue parse now p = true →
      tickStep parse2 now2 iso2 (tickStep parse now nowIso p) =
        tickStep parse now nowIso p) := by
  refine ⟨schedulerTick_memory parse now nowIso s hnd, ?_, ?_, ?_, ?_⟩
  · intro p
    unfold isDue
    rcases hs : p.scheduledPublishDate with _ | d
    · simp [hs]
    · rcases hparse : parse d with _ | t
      · simp [hs, hparse]
      · simp [hs, hparse]
  · intro p h
    have hstep : tickStep parse now nowIso p =
        applyUpdates p (promoteUpdates nowIso) now := by
      rw [tickStep, if_pos h]
    exact ⟨hstep, by rw [hstep]; rfl, by rw [hstep]; rfl, by rw [hstep]; rfl⟩
  · intro p h
    rw [tickStep, if_neg (by simp [h])]
  · intro parse2 now2 iso2 p h
    have hstep : tickStep parse now nowIso p =
        applyUpdates p (promoteUpdates nowIso) now := by
      rw [tickStep, if_pos h]
    have hnotdue : isDue parse2 now2 (tickStep parse now nowIso p) = false := by
      rw [hstep]
      simp [isDue, applyUpdates, promoteUpdates]
    rw [tickStep, if_neg (by simp [hnotdue])]

/-- C2 witness: a concrete draft scheduled at time 5 is promoted by a tick
at time 7. -/
theorem claim_c2_witness :
    (([draftPost "a" (some "5")] : List Post).map Post.id).Nodup ∧
    schedulerTick tinyParse 7 "7" (fun _ => false)
        (.memory ⟨[draftPost "a" (some "5")], ["Algemeen"]⟩) =
      .memory ⟨[tickStep tinyParse 7 "7" (draftPost "a" (some "5"))],
        ["Algemeen"]⟩ :=
  ⟨by decide,
    (claim_c2_tick_promotes_exactly_due tinyParse 7 "7"
      ⟨[draftPost "a" (some "5")], ["Algemeen"]⟩ (by decide)).1⟩

/-- C1 counterexample: two due posts `a` and `b`; the update of `a` (the
first one scanned) throws.  The tick ends with the store completely
unchanged — in particular the remaining due post `b` is NOT promoted in
that tick, contradicting the claim that the scan continues per post.  The
last conjunct shows that without the failure the very same tick would have
promoted both posts. -/
theorem claim_c1_counterexample :
    isDue tinyParse 7 (draftPost "a" (some "5")) = true ∧
    isDue tinyParse 7 (draftPost "b" (some "5")) = true ∧
    schedulerTick tinyParse 7 "7" (fun id => decide (id = "a"))
        (.memory ⟨[draftPost "a" (some "5"), draftPost "b" (some "5")],
          ["Algemeen"]⟩) =
      .memory ⟨[draftPost "a" (some "5"), draftPost "b" (some "5")],
        ["Algemeen"]⟩ ∧
    schedulerTick tinyParse 7 "7" (fun _ => false)
        (.memory ⟨[draftPost "a" (some "5"), draftPost "b" (some "5")],
          ["Algemeen"]⟩) =
      .memory ⟨[tickStep tinyParse 7 "7" (draftPost "a" (some "5")),
        tickStep tinyParse 7 "7" (draftPost "b" (some "5"))], ["Algemeen"]⟩ ∧
    (tickStep tinyParse 7 "7" (draftPost "b" (some "5"))).status =
      some "published" := by
  refine ⟨by decide, by decide, ?_, ?_, by decide⟩
  · decide
  · decide

/-- C1 (amended): the scheduler's `try`/`catch` wraps the whole per-tick
loop, not each post.  When the first post of the array is due and its
update throws, the error is caught at tick level (the tick returns instead
of crashing the interval loop) but the scan is aborted: the store is left
unchanged, so the remaining due posts are not promoted in that tick.  A
subsequent fault-free tick promotes every due post. -/
theorem claim_c1_tick_level_catch (parse : String → Option Int) (now : Int)
    (nowIso : String) (g : String → Bool) (p : Post) (rest : List Post)
    (cats : List String) (hdue : isDue parse now p = true)
    (hg : g p.id = true) (hnd : ((p :: rest).map Post.id).Nodup) :
    schedulerTick parse now nowIso g (.memory ⟨p :: rest, cats⟩) =
      .memory ⟨p :: rest, cats⟩ ∧
    schedulerTick parse now nowIso (fun _ => false) (.memory ⟨p :: rest, cats⟩) =
      .memory ⟨(p :: rest).map (tickStep parse now nowIso), cats⟩ :=
  ⟨schedulerTick_abortFirst parse now nowIso g p rest cats hdue hg,
    schedulerTick_memory parse now nowIso ⟨p :: rest, cats⟩ hnd⟩

/-- C1 witness: the amended theorem applied at the counterexample's
concrete input. -/
theorem claim_c1_witness :
    isDue tinyParse 7 (draftPost "a" (some "5")) = true ∧
    (fun id => decide (id = "a")) (draftPost "a" (some "5")).id = true ∧
    (([draftPost "a" (some "5"), draftPost "b" (some "5")] : List Post).map
      Post.id).Nodup ∧
    schedulerTick tinyParse 7 "7" (fun id => decide (id = "a"))
        (.memory ⟨[draftPost "a" (some "5"), draftPost "b" (some "5")],
          ["Algemeen"]⟩) =
      .memory ⟨[draftPost "a" (some "5"), draftPost "b" (some "5")],
        ["Algemeen"]⟩ :=
  ⟨by decide, by decide, by decide,
    (claim_c1_tick_level_catch tinyParse 7 "7" (fun id => decide (id = "a"))
      (draftPost "a" (some "5")) [draftPost "b" (some "5")] ["Algemeen"]
      (by decide) (by decide) (by decide)).1⟩

/-- C8: the scheduler tick enumerates `db.posts || []`; the
`PostgreSQLDatabase` object carries no `posts` property, so with the
PostgreSQL backend every tick iterates the empty array and leaves the
database untouched — no scheduled post is ever promoted.  The last two
conjuncts contrast this with the in-memory backend, where a tick over the
same single due post does change the store. -/
theorem claim_c8_postgres_tick_inert (parse : String → Option Int) (now : Int)
    (nowIso : String) (g : String → Bool) (t : PGState) :
    dbPostsField (.postgres t) = none ∧
    dbPostsOrEmpty (.postgres t) = [] ∧
    schedulerTick parse now nowIso g (.postgres t) = .postgres t ∧
    schedulerTick tinyParse 7 "7" (fun _ => false)
        (.memory ⟨[draftPost "a" (some "5")], []⟩) ≠
      .memory ⟨[draftPost "a" (some "5")], []⟩ :=
  ⟨rfl, rfl, rfl, by decide⟩

/-- C3 (amended): the two backends diverge on unknown ids.  The in-memory
`updatePost` throws `'Post not found'` for an id absent from the store
(leaving the array untouched — the throw precedes any mutation) and, for a
stored id, replaces the first matching post by the spread-merge of the given
fields with `updatedAt` refreshed to now.  The PostgreSQL `updatePost` never
raises NotFound: for an unknown id the `UPDATE ... WHERE id` matches no row
and the method returns `null` with the table unchanged; for a stored id
(shown for a one-row table) with at least one allow-listed field present it
merges the fields and refreshes `updated_at`. -/
theorem claim_c3_updatePost_contract (now : Int) (id : String) (u : PostUpdates)
    (posts rows : List Post) (i : Nat) (p : Post)
    (hunknown : id ∉ posts.map Post.id)
    (hnd : (posts.map Post.id).Nodup) (hp : posts[i]? = some p)
    (hpgunknown : id ∉ rows.map Post.id) :
    updatePostMem now id u posts = .error "Post not found" ∧
    updatePostMem now p.id u posts =
      .ok (posts.set i (applyUpdates p u now), applyUpdates p u now) ∧
    (applyUpdates p u now).updatedAt = now ∧
    updatePostPG now id u rows = (rows, none) ∧
    (∀ q : Post, pgHasUpdates u = true →
      updatePostPG now q.id u [q] =
        ([applyUpdatesPG q u now], some (applyUpdatesPG q u now)) ∧
      (applyUpdatesPG q u now).updatedAt = now) := by
  refine ⟨updatePostMem_notFound now id u posts hunknown,
    updatePostMem_at now u posts i p hnd hp, rfl,
    updatePostPG_unknown now id u rows hpgunknown, ?_⟩
  intro q hu
  refine ⟨?_, rfl⟩
  unfold updatePostPG
  rw [if_pos hu]
  simp [getPostByIdPG, applyUpdatesPG]

/-- C3 counterexample: on the unknown id `"2"` the PostgreSQL backend's
`updatePost` returns successfully with `null` and an unchanged table — it
does not fail with NotFound as the claim states for every backend (the
in-memory backend does throw). -/
theorem claim_c3_counterexample :
    updatePostMem 5 "2" { title := some (some "x") } [draftPost "1" none] =
      .error "Post not found" ∧
    updatePostPG 5 "2" { title := some (some "x") } [draftPost "1" none] =
      ([draftPost "1" none], none) := ⟨by decide, by decide⟩

/-- C3 witness: the amended theorem applied at a concrete one-post store. -/
theorem claim_c3_witness :
    ("2" ∉ ([draftPost "1" none] : List Post).map Post.id) ∧
    (([draftPost "1" none] : List Post).map Post.id).Nodup ∧
    ([draftPost "1" none] : List Post)[0]? = some (draftPost "1" none) ∧
    updatePostMem 5 (draftPost "1" none).id { title := some (some "x") }
        [draftPost "1" none] =
      .ok ([applyUpdates (draftPost "1" none) { title := some (some "x") } 5],
        applyUpdates (draftPost "1" none) { title := some (some "x") } 5) :=
  ⟨by decide, by decide, by decide,
    (claim_c3_updatePost_contract 5 "2" { title := some (some "x") }
      [draftPost "1" none] [draftPost "1" none] 0 (draftPost "1" none)
      (by decide) (by decide) (by decide) (by decide)).2.1⟩

/-- The match condition the amended C4 states, written as a plain
disjunction (no short-circuit): lower-cased title or content contains the
lower-cased query, or some tag — in its ORIGINAL case — contains the
lower-cased query. -/
def amendedMatch (query : String) (p : Post) : Bool :=
  (match p.title with
   | some t => strContains (jsToLower t) (jsToLower query)
   | none => false) ||
  (match p.content with
   | some c => strContains (jsToLower c) (jsToLower query)
   | none => false) ||
  (match p.tags with
   | some tags => tags.any (fun tag => strContains tag (jsToLower query))
   | none => false)

/-- C4 (amended): for stores of well-formed posts, `searchPosts` includes a
post exactly when its lower-cased title or lower-cased content contains the
lower-cased query, or one of its tags contains the lower-cased query as a
CASE-SENSITIVE substring (the code lower-cases the query but not the tags);
on the PostgreSQL backend the tag comparison is likewise case-sensitive,
against the text of the tags JSON array. -/
theorem claim_c4_search_characterization (q : String) (posts rows : List Post)
    (hwf : ∀ x ∈ posts, x.title.isSome ∧ x.content.isSome ∧ x.tags.isSome) :
    (∃ l, searchPostsMem q posts = some l ∧
      ∀ p : Post, p ∈ l ↔ p ∈ posts ∧ amendedMatch q p = true) ∧
    (∀ (parse : String → Option Int) (p : Post),
      p ∈ searchPostsPG parse q rows ↔
        p ∈ rows ∧ pgSearchMatch (jsToLower q) p = true) := by
  constructor
  · have key : ∀ x ∈ posts, searchMatch (jsToLower q) x = some (amendedMatch q x) := by
      intro x hx
      obtain ⟨h1, h2, h3⟩ := hwf x hx
      obtain ⟨t, ht⟩ := Option.isSome_iff_exists.mp h1
      obtain ⟨c, hc⟩ := Option.isSome_iff_exists.mp h2
      obtain ⟨tg, htg⟩ := Option.isSome_iff_exists.mp h3
      rw [searchMatch_defined (jsToLower q) x t c tg ht hc htg]
      simp [amendedMatch, ht, hc, htg]
    have hsome : ∀ x ∈ posts, (searchMatch (jsToLower q) x).isSome := fun x hx => by
      rw [key x hx]; rfl
    refine ⟨posts.filter (fun x => (searchMatch (jsToLower q) x).getD false),
      filterThrowing_eq_filter _ posts hsome, ?_⟩
    intro p
    rw [List.mem_filter]
    constructor
    · rintro ⟨hmem, hb⟩
      rw [key p hmem] at hb
      exact ⟨hmem, by simpa using hb⟩
    · rintro ⟨hmem, hb⟩
      refine ⟨hmem, ?_⟩
      rw [key p hmem]
      simpa using hb
  · intro parse p
    unfold searchPostsPG
    rw [mem_sortByComp, List.mem_filter]

/-- A published post whose only hit for the query `"Quiz"` would be its tag
`"Quiz"`. -/
def tagCasePost : Post :=
  { id := "t1"
    title := some "Avond"
    slug := some "avond"
    excerpt := none
    content := some "Gezellig"
    author := some "Admin"
    category := some "Algemeen"
    tags := some ["Quiz"]
    image := none
    publishedDate := none
    scheduledPublishDate := none
    readTime := none
    featured := some false
    status := some "published"
    createdAt := 0
    updatedAt := 0
    commentCount := 0 }

/-- C4 counterexample: the tag `"Quiz"` contains the query `"Quiz"` as a
case-insensitive substring (their lower-casings are equal), yet both
backends' `searchPosts` exclude the post, because the code lower-cases the
query but matches it against the tag's original case. -/
theorem claim_c4_counterexample :
    jsToLower "Quiz" = "quiz" ∧
    strContains (jsToLower "Quiz") (jsToLower "Quiz") = true ∧
    tagCasePost.tags = some ["Quiz"] ∧
    searchPostsMem "Quiz" [tagCasePost] = some [] ∧
    searchPostsPG tinyParse "Quiz" [tagCasePost] = [] :=
  ⟨by decide, by decide, by decide, by decide, by decide⟩

/-- C4 witness: the amended characterization applied at a concrete one-post
store and the query `"avond"`. -/
theorem claim_c4_witness :
    (∀ x ∈ ([tagCasePost] : List Post),
      x.title.isSome ∧ x.content.isSome ∧ x.tags.isSome) ∧
    ((∃ l, searchPostsMem "avond" [tagCasePost] = some l ∧
      ∀ p : Post, p ∈ l ↔ p ∈ ([tagCasePost] : List Post) ∧
        amendedMatch "avond" p = true) ∧
     (∀ (parse : String → Option Int) (p : Post),
      p ∈ searchPostsPG parse "avond" [tagCasePost] ↔
        p ∈ ([tagCasePost] : List Post) ∧
          pgSearchMatch (jsToLower "avond") p = true)) :=
  ⟨by decide,
    claim_c4_search_characterization "avond" [tagCasePost] [tagCasePost] (by decide)⟩

/-- C9: neither backend's `searchPosts` filters by status: a non-published
post whose title/content/tags match the query is included in the search
results, although `getPosts` (which keeps only `status = 'published'`
posts) excludes it. -/
theorem claim_c9_search_ignores_status (parse : String → Option Int)
    (q : String) (filters : PostFilters) (posts rows : List Post) (p p2 : Post)
    (hall : ∀ x ∈ posts, (searchMatch (jsToLower q) x).isSome)
    (hmem : p ∈ posts) (hdraft : p.status ≠ some "published")
    (hmatch : (searchMatch (jsToLower q) p).getD false = true)
    (hmem2 : p2 ∈ rows) (hdraft2 : p2.status ≠ some "published")
    (hmatch2 : pgSearchMatch (jsToLower q) p2 = true) :
    (∃ l, searchPostsMem q posts = some l ∧ p ∈ l) ∧
    p ∉ getPostsMem parse filters posts ∧
    p2 ∈ searchPostsPG parse q rows ∧
    p2 ∉ getPostsPG parse filters rows := by
  refine ⟨⟨_, filterThrowing_eq_filter _ posts hall, ?_⟩, ?_, ?_, ?_⟩
  · rw [List.mem_filter]
    exact ⟨hmem, hmatch⟩
  · intro hc
    exact hdraft (mem_getPostsMem_published parse filters posts p hc)
  · unfold searchPostsPG
    rw [mem_sortByComp, List.mem_filter]
    exact ⟨hmem2, hmatch2⟩
  · intro hc
    exact hdraft2 (mem_getPostsPG_published parse filters rows p2 hc)

/-- C9 witness: a concrete draft post matching the query `"draft"`. -/
theorem claim_c9_witness :
    (∀ x ∈ ([draftPost "a" none] : List Post),
      (searchMatch (jsToLower "draft") x).isSome) ∧
    (draftPost "a" none).status ≠ some "published" ∧
    (searchMatch (jsToLower "draft") (draftPost "a" none)).getD false = true ∧
    pgSearchMatch (jsToLower "draft") (draftPost "a" none) = true ∧
    ((∃ l, searchPostsMem "draft" [draftPost "a" none] = some l ∧
        draftPost "a" none ∈ l) ∧
      draftPost "a" none ∉ getPostsMem tinyParse ⟨none, none⟩ [draftPost "a" none] ∧
      draftPost "a" none ∈ searchPostsPG tinyParse "draft" [draftPost "a" none] ∧
      draftPost "a" none ∉ getPostsPG tinyParse ⟨none, none⟩ [draftPost "a" none]) :=
  ⟨by decide, by decide, by decide, by decide,
    claim_c9_search_ignores_status tinyParse "draft" ⟨none, none⟩
      [draftPost "a" none] [draftPost "a" none] (draftPost "a" none)
      (draftPost "a" none) (by decide) (by decide) (by decide) (by decide)
      (by decide) (by decide) (by decide)⟩

/-- C5 (amended): the in-memory `getCategories` returns exactly the
duplicate-free union of the registered categories, the non-empty category
names used by posts, and `'Algemeen'`; the PostgreSQL `getCategories`
returns only the registered category names (sorted) plus `'Algemeen'` —
categories merely used by posts do NOT appear there.  Both listings always
contain `'Algemeen'`. -/
theorem claim_c5_categories_listing (s : MemState) (t : PGState) :
    (∀ c, c ∈ getCategoriesMem s ↔
      c ∈ s.categories ∨ (c ≠ "" ∧ some c ∈ s.posts.map Post.category) ∨
        c = "Algemeen") ∧
    "Algemeen" ∈ getCategoriesMem s ∧
    (∀ c, c ∈ getCategoriesPG t ↔ c ∈ t.categories ∨ c = "Algemeen") ∧
    "Algemeen" ∈ getCategoriesPG t := by
  have hmem : ∀ c, c ∈ getCategoriesMem s ↔
      c ∈ s.categories ∨ (c ≠ "" ∧ some c ∈ s.posts.map Post.category) ∨
        c = "Algemeen" := by
    intro c
    unfold getCategoriesMem
    simp only [mem_dedupFirst, List.mem_append, List.mem_filter,
      List.mem_filterMap, List.mem_singleton, List.mem_map, decide_eq_true_eq]
    aesop
  have hpg : ∀ c, c ∈ getCategoriesPG t ↔ c ∈ t.categories ∨ c = "Algemeen" := by
    intro c
    simp only [getCategoriesPG]
    split
    · rename_i hAl
      rw [mem_sortByComp]
      constructor
      · exact Or.inl
      · rintro (h | h)
        · exact h
        · subst h
          exact (mem_sortByComp strLe "Algemeen" t.categories).mp hAl
    · rw [List.mem_append, mem_sortByComp, List.mem_singleton]
  exact ⟨hmem, (hmem "Algemeen").mpr (Or.inr (Or.inr rfl)), hpg,
    (hpg "Algemeen").mpr (Or.inr rfl)⟩

/-- A post referencing the category `"Onderwijs"`. -/
def catPost : Post := { draftPost "c1" none with category := some "Onderwijs" }

/-- C5 counterexample: a category referenced by a stored post but never
registered appears in the in-memory listing but NOT in the PostgreSQL
listing, contradicting the claim for that backend. -/
theorem claim_c5_counterexample :
    some "Onderwijs" ∈ ([catPost] : List Post).map Post.category ∧
    "Onderwijs" ∉ getCategoriesPG ⟨[catPost], ["Algemeen"]⟩ ∧
    "Onderwijs" ∈ getCategoriesMem ⟨[catPost], ["Algemeen"]⟩ :=
  ⟨by decide, by decide, by decide⟩

/-- C6 (amended): both backends fail with `'Category name required'` when
the name is empty after trimming, leaving the store unchanged, and the
in-memory backend is a no-op when an equal-ignoring-case name is already
registered.  The PostgreSQL backend, however, deduplicates only on the
EXACT name (`ON CONFLICT (name)`): an equal-ignoring-case (but not equal)
name is inserted as a new category row. -/
theorem claim_c6_addCategory_dedup (name : String) (s : MemState) (t : PGState)
    (hne : jsTrim name ≠ "")
    (hdupMem : s.categories.any
      (fun c => jsToLower c = jsToLower (jsTrim name)) = true)
    (hdupPG : jsTrim name ∈ t.categories) :
    addCategoryMem name s = .ok (s, getCategoriesMem s) ∧
    addCategoryPG name t = .ok (t, getCategoriesPG t) ∧
    (∀ (nm : String) (s2 : MemState), jsTrim nm = "" →
      addCategoryMem nm s2 = .error "Category name required") ∧
    (∀ (nm : String) (t2 : PGState), jsTrim nm = "" →
      addCategoryPG nm t2 = .error "Category name required") ∧
    (∀ (nm : String) (t2 : PGState), jsTrim nm ≠ "" → jsTrim nm ∉ t2.categories →
      addCategoryPG nm t2 =
        .ok ({ t2 with categories := t2.categories ++ [jsTrim nm] },
          getCategoriesPG { t2 with categories := t2.categories ++ [jsTrim nm] })) := by
  refine ⟨?_, ?_, ?_, ?_, ?_⟩
  · simp [addCategoryMem, hne, hdupMem]
  · simp [addCategoryPG, hne, hdupPG]
  · intro nm s2 h
    simp [addCategoryMem, h]
  · intro nm t2 h
    simp [addCategoryPG, h]
  · intro nm t2 h1 h2
    simp [addCategoryPG, h1, h2]

/-- C6 counterexample: `"algemeen"` equals the registered `"Algemeen"`
ignoring case, yet the PostgreSQL `addCategory` inserts it as a second row
(the in-memory backend is a no-op on the same input, as the claim says). -/
theorem claim_c6_counterexample :
    jsToLower "algemeen" = jsToLower "Algemeen" ∧
    addCategoryPG "algemeen" ⟨[], ["Algemeen"]⟩ =
      .ok (⟨[], ["Algemeen", "algemeen"]⟩, ["Algemeen", "algemeen"]) ∧
    addCategoryMem "algemeen" ⟨[], ["Algemeen"]⟩ =
      .ok (⟨[], ["Algemeen"]⟩, ["Algemeen"]) :=
  ⟨by decide, by decide, by decide⟩

/-- C6 witness: the amended theorem applied at the name `"Algemeen"`, which
is registered on both backends. -/
theorem claim_c6_witness :
    jsTrim "Algemeen" ≠ "" ∧
    addCategoryMem "Algemeen" ⟨[], ["Algemeen"]⟩ =
      .ok (⟨[], ["Algemeen"]⟩, getCategoriesMem ⟨[], ["Algemeen"]⟩) ∧
    addCategoryPG "Algemeen" ⟨[], ["Algemeen"]⟩ =
      .ok (⟨[], ["Algemeen"]⟩, getCategoriesPG ⟨[], ["Algemeen"]⟩) :=
  ⟨by decide,
    (claim_c6_addCategory_dedup "Algemeen" ⟨[], ["Algemeen"]⟩ ⟨[], ["Algemeen"]⟩
      (by decide) (by decide) (by decide)).1,
    (claim_c6_addCategory_dedup "Algemeen" ⟨[], ["Algemeen"]⟩ ⟨[], ["Algemeen"]⟩
      (by decide) (by decide) (by decide)).2.1⟩

/-- The create-input of the C7 demonstration: a new draft reusing the seed
slug `"perfecte-pubquiz-organiseren"`. -/
def dupSlugNewPost : NewPost :=
  { title := some "Nieuwe post"
    slug := some "perfecte-pubquiz-organiseren"
    content := some "Inhoud"
    status := some "draft" }

/-- C7: slug uniqueness is violated by the in-memory backend.  Starting
from the seed state (whose slugs are distinct), a single `createPost` with
an already-used slug leaves the store holding TWO posts with that slug —
`InMemoryDatabase.createPost` performs no slug check before pushing.  The
same input against the PostgreSQL backend raises a unique-constraint
violation, because the schema declares `slug VARCHAR(255) UNIQUE NOT
NULL`; the in-memory behaviour contradicts that declared invariant. -/
theorem claim_c7_slug_not_unique :
    (seedMemState.posts.map Post.slug).Nodup ∧
    ¬ (((createPostMem "99" 0 "0" dupSlugNewPost seedMemState).1.posts.map
        Post.slug).Nodup) ∧
    ((createPostMem "99" 0 "0" dupSlugNewPost seedMemState).1.posts.filter
      (fun p => p.slug = some "perfecte-pubquiz-organiseren")).length = 2 ∧
    createPostPG "99" 0 "0" dupSlugNewPost ⟨seedMemState.posts, seedCategories⟩ =
      .error "duplicate key value violates unique constraint" :=
  ⟨by decide, by decide, by decide, by decide⟩

/-- C10: the in-memory `updatePost` merge is keyed on key presence, not
definedness: a present key carrying `undefined` overwrites the stored field
with `undefined`, and only absent keys preserve the stored value.  The
admin PUT route passes every contract key (so a body omitting a field
clears it — e.g. `category` and `image` below become the body's value even
when that value is `undefined`), while keys the route does not pass
(`publishedDate`, `readTime`) keep their stored values. -/
theorem claim_c10_put_clears_omitted (now : Int) (b : PutBody) (p : Post) :
    updatePostMem now p.id (adminPutUpdates b) [p] =
      .ok ([applyUpdates p (adminPutUpdates b) now],
        applyUpdates p (adminPutUpdates b) now) ∧
    (applyUpdates p (adminPutUpdates b) now).title = b.title ∧
    (applyUpdates p (adminPutUpdates b) now).category = b.category ∧
    (applyUpdates p (adminPutUpdates b) now).image = b.image ∧
    (applyUpdates p (adminPutUpdates b) now).status = b.status ∧
    (applyUpdates p (adminPutUpdates b) now).tags = b.tags ∧
    (applyUpdates p (adminPutUpdates b) now).publishedDate = p.publishedDate ∧
    (applyUpdates p (adminPutUpdates b) now).readTime = p.readTime ∧
    (∀ u : PostUpdates, u.category = none →
      (applyUpdates p u now).category = p.category) ∧
    (∀ v : Option String,
      (applyUpdates p { category := some v } now).category = v) := by
  refine ⟨?_, rfl, rfl, rfl, rfl, rfl, rfl, rfl, ?_, fun v => rfl⟩
  · simp [updatePostMem]
  · intro u hu
    simp [applyUpdates, hu]

/-- C10 witness: a PUT body carrying only `title` clears the stored
`category` (the route passes the key with value `undefined`), whereas an
updates object missing the `category` key keeps the stored value. -/
theorem claim_c10_witness :
    (applyUpdates (draftPost "1" none)
      (adminPutUpdates { title := some "Nieuw" }) 5).category = none ∧
    (applyUpdates (draftPost "1" none) { title := some (some "Nieuw") } 5).category =
      some "Algemeen" :=
  ⟨(claim_c10_put_clears_omitted 5 { title := some "Nieuw" }
      (draftPost "1" none)).2.2.1,
   (claim_c10_put_clears_omitted 5 { title := some "Nieuw" }
      (draftPost "1" none)).2.2.2.2.2.2.2.2.1 { title := some (some "Nieuw") } rfl⟩
